import Mathlib

/-!
Verification development for the satty screen-annotation tool.

The definitions below are a shallow embedding of the two source files of the
repository: `src/sketch_board.rs` (the sketch-board orchestrator) and
`src/main.rs` (the single-instance daemon relay).  Polymorphic tools
(`Rc<RefCell<dyn Tool>>` in the source) are embedded as pure state machines
(`ToolImpl`): a record of transition functions, with the board threading the
per-tool states explicitly.  External collaborators that the board only calls
into (the femtovg renderer's coordinate transforms, the chrono timestamp
formatter, the configured keybinding map and palette) appear as function
parameters, so every theorem is quantified over their behaviour.
-/

namespace Satty

/-- `ToolUpdateResult` from `src/tools` (used throughout `sketch_board.rs`):
the result of feeding one event to a tool. -/
inductive ToolUpdateResult (D : Type) where
  | Unmodified
  | Redraw
  | Commit (d : D)
  | StopPropagation
  | RedrawAndStopPropagation
deriving DecidableEq

/-- `ToolEvent` from `src/tools`: polymorphic input to a tool.  `D` is the
drawable type, `S` the style type, `I` the input-event type. -/
inductive ToolEvent (D S I : Type) where
  | Activated
  | Deactivated
  | Input (e : I)
  | StyleChanged (s : S)
deriving DecidableEq

/-- A tool implementation: the capability set of the `Tool` trait, embedded as
pure transition functions over an explicit tool-state type `St`. -/
structure ToolImpl (St D S I : Type) where
  handleEvent : ToolEvent D S I → St → St × ToolUpdateResult D
  handleUndo : St → St × ToolUpdateResult D
  handleRedo : St → St × ToolUpdateResult D
  active : St → Bool
  inputEnabled : St → Bool

/-- Pointwise update of a per-tool state table at one tool id. -/
def updState {St ToolId : Type} [DecidableEq ToolId]
    (states : ToolId → St) (k : ToolId) (st : St) : ToolId → St :=
  fun j => if j = k then st else states j

/-- Observable record of one `ToolSelected` tool switch: the tool events sent
(in order, tagged with the receiving tool's id), the drawables passed to
`renderer.commit` (in order), the raw deactivation and activation results, the
returned `ToolUpdateResult`, and the tool installed as active. -/
structure SwitchTrace (ToolId D S I : Type) where
  events : List (ToolId × ToolEvent D S I)
  commits : List D
  deactResult : ToolUpdateResult D
  activateResult : ToolUpdateResult D
  result : ToolUpdateResult D
  activeTool : ToolId

/-- The drawables the `ToolSelected` arm hands to `renderer.commit`, as a
function of the deactivation result (the
`if let ToolUpdateResult::Commit(d) = deactivate_result` branch,
src/sketch_board.rs line 605): one commit for `Commit(d)`, none otherwise. -/
def commitList {D : Type} : ToolUpdateResult D → List D
  | ToolUpdateResult.Commit d => [d]
  | _ => []

/-- The commit-to-redraw conversion applied to the deactivation result inside
the `ToolSelected` arm (src/sketch_board.rs line 607): a pending `Commit`
becomes a `Redraw`. -/
def commitToRedraw {D : Type} : ToolUpdateResult D → ToolUpdateResult D
  | ToolUpdateResult.Commit _ => ToolUpdateResult.Redraw
  | r => r

/-- The final `match activate_result` of the `ToolSelected` arm
(src/sketch_board.rs lines 633-636): the activation result is returned unless
it is `Unmodified`, in which case the (commit-converted) deactivation result
is. -/
def switchResult {D : Type} (deact act : ToolUpdateResult D) : ToolUpdateResult D :=
  match act with
  | ToolUpdateResult.Unmodified => commitToRedraw deact
  | r => r

/-- The `ToolbarEvent::ToolSelected(tool)` arm of
`SketchBoard::handle_toolbar_event` (src/sketch_board.rs lines 598-637):
send `Deactivated` to the old tool, clear its input context, commit a pending
drawable (turning the deactivation result into `Redraw`), install the new tool,
push the style via `StyleChanged`, send `Activated`, and return
`switchResult deactivate_result activate_result`. -/
def handle_toolbar_event_tool_selected {St D S I ToolId : Type} [DecidableEq ToolId]
    (impls : ToolId → ToolImpl St D S I) (states : ToolId → St)
    (oldId newId : ToolId) (style : S) :
    SwitchTrace ToolId D S I × (ToolId → St) :=
  let r1 := (impls oldId).handleEvent ToolEvent.Deactivated (states oldId)
  let states1 := updState states oldId r1.1
  let r2 := (impls newId).handleEvent (ToolEvent.StyleChanged style) (states1 newId)
  let states2 := updState states1 newId r2.1
  let r3 := (impls newId).handleEvent ToolEvent.Activated (states2 newId)
  let states3 := updState states2 newId r3.1
  (⟨[(oldId, ToolEvent.Deactivated), (newId, ToolEvent.StyleChanged style),
      (newId, ToolEvent.Activated)],
    commitList r1.2, r1.2, r3.2, switchResult r1.2 r3.2, newId⟩, states3)

/-- Modelled from the spec: the annotation `History` (spec section 3), an
ordered sequence of committed drawables plus a cursor; the visible prefix is
`stack.take cursor`.  The implementation lives in the femtovg renderer, which
is not under src/; only its behaviour as specified is modelled here. -/
structure History (D : Type) where
  stack : List D
  cursor : Nat
deriving DecidableEq

/-- Modelled from the spec: `renderer.undo()` — History's `undo()` moves the
cursor back if possible; the returned flag says whether it moved. -/
def History.undo {D : Type} (h : History D) : History D × Bool :=
  if 0 < h.cursor then ({ h with cursor := h.cursor - 1 }, true) else (h, false)

/-- Modelled from the spec: `renderer.redo()` — History's `redo()` moves the
cursor forward if possible; the returned flag says whether it moved. -/
def History.redo {D : Type} (h : History D) : History D × Bool :=
  if h.cursor < h.stack.length then ({ h with cursor := h.cursor + 1 }, true)
  else (h, false)

/-- `SketchBoard::handle_undo` (src/sketch_board.rs lines 540-548): if the
active tool reports `active()`, its `handle_undo` result is returned (History
untouched); otherwise fall through to History, returning `Redraw` exactly when
the cursor moved. -/
def handle_undo {St D S I : Type} (tool : ToolImpl St D S I) (toolSt : St)
    (hist : History D) : St × History D × ToolUpdateResult D :=
  if tool.active toolSt then
    let r := tool.handleUndo toolSt
    (r.1, hist, r.2)
  else
    let r := hist.undo
    (toolSt, r.1, if r.2 then ToolUpdateResult.Redraw else ToolUpdateResult.Unmodified)

/-- `SketchBoard::handle_redo` (src/sketch_board.rs lines 550-558): symmetric
to `handle_undo`. -/
def handle_redo {St D S I : Type} (tool : ToolImpl St D S I) (toolSt : St)
    (hist : History D) : St × History D × ToolUpdateResult D :=
  if tool.active toolSt then
    let r := tool.handleRedo toolSt
    (r.1, hist, r.2)
  else
    let r := hist.redo
    (toolSt, r.1, if r.2 then ToolUpdateResult.Redraw else ToolUpdateResult.Unmodified)

/-- `MouseButton` (src/sketch_board.rs lines 59-64). -/
inductive MouseButton where
  | Primary
  | Secondary
  | Middle
deriving DecidableEq

/-- The raw GDK button codes used by `From<u32> for MouseButton`
(src/sketch_board.rs lines 150-159): `gtk::gdk` documents
`BUTTON_PRIMARY = 1`, `BUTTON_MIDDLE = 2`, `BUTTON_SECONDARY = 3`. -/
def BUTTON_PRIMARY : Nat := 1

/-- GDK middle-button code. -/
def BUTTON_MIDDLE : Nat := 2

/-- GDK secondary-button code. -/
def BUTTON_SECONDARY : Nat := 3

/-- `From<u32> for MouseButton` (src/sketch_board.rs lines 150-159): the three
known GDK codes map to their buttons, everything else to `Primary`. -/
def mouseButtonFromU32 (value : Nat) : MouseButton :=
  if value = BUTTON_PRIMARY then MouseButton.Primary
  else if value = BUTTON_MIDDLE then MouseButton.Middle
  else if value = BUTTON_SECONDARY then MouseButton.Secondary
  else MouseButton.Primary

/-- `MouseEventType` (src/sketch_board.rs lines 83-92). -/
inductive MouseEventType where
  | BeginDrag
  | EndDrag
  | UpdateDrag
  | Click
  | Scroll
  | PointerPos
  | Release
deriving DecidableEq

/-- `MouseEventMsg` (src/sketch_board.rs lines 94-102).  `V` is the 2-D vector
type (`Vec2D`), `M` the modifier type (`ModifierType`). -/
structure MouseEventMsg (V M : Type) where
  type_ : MouseEventType
  button : MouseButton
  modifier : M
  pos : V
  n_pressed : Int
  release : Bool

/-- `InputEvent` (src/sketch_board.rs lines 51-57).  `K` is the key-event type,
`T` the text-event type. -/
inductive InputEvent (V M K T : Type) where
  | Mouse (me : MouseEventMsg V M)
  | Key (ke : K)
  | KeyRelease (ke : K)
  | Text (te : T)

/-- `InputEvent::handle_event_mouse_input` (src/sketch_board.rs lines 162-186):
rewrite the position of a mouse event in place — `Click`, `Release` and
`BeginDrag` through the absolute viewport-to-image mapping `abs`, `EndDrag` and
`UpdateDrag` through the relative mapping `rel`, all other kinds untouched —
and return `None`.  The renderer's two mappings
(`abs_canvas_to_image_coordinates`, `rel_canvas_to_image_coordinates`) live in
the femtovg area outside src/ and are taken as parameters. -/
def handle_event_mouse_input {V M K T D : Type} (abs rel : V → V)
    (ie : InputEvent V M K T) : InputEvent V M K T × Option (ToolUpdateResult D) :=
  match ie with
  | InputEvent.Mouse me =>
    match me.type_ with
    | MouseEventType.Click => (InputEvent.Mouse { me with pos := abs me.pos }, none)
    | MouseEventType.Release => (InputEvent.Mouse { me with pos := abs me.pos }, none)
    | MouseEventType.BeginDrag => (InputEvent.Mouse { me with pos := abs me.pos }, none)
    | MouseEventType.EndDrag => (InputEvent.Mouse { me with pos := rel me.pos }, none)
    | MouseEventType.UpdateDrag => (InputEvent.Mouse { me with pos := rel me.pos }, none)
    | _ => (InputEvent.Mouse me, none)
  | e => (e, none)

/-- Written from the spec's words (spec section 4.3 step 2 and section 4.1):
which mapping each mouse-event kind's position goes through before the event
reaches the active tool.  Compared against the source-derived
`handle_event_mouse_input` in the theorem for claim C4. -/
def mouseTransformSpec {V : Type} (abs rel : V → V) :
    MouseEventType → V → V
  | MouseEventType.Click, p => abs p
  | MouseEventType.Release, p => abs p
  | MouseEventType.BeginDrag, p => abs p
  | MouseEventType.UpdateDrag, p => rel p
  | MouseEventType.EndDrag, p => rel p
  | MouseEventType.Scroll, p => p
  | MouseEventType.PointerPos, p => p

/-- The non-key branch of `SketchBoard::update` for input events
(src/sketch_board.rs lines 983-1001): the mouse event's position is transformed
by `handle_event_mouse_input` first, then the (transformed) event is routed to
the active tool as `ToolEvent::Input`.  Returns the tool event delivered to the
active tool together with the tool's step. -/
def update_route_mouse {St V M K T D S : Type} (abs rel : V → V)
    (tool : ToolImpl St D S (InputEvent V M K T)) (toolSt : St)
    (ie : InputEvent V M K T) :
    ToolEvent D S (InputEvent V M K T) × (St × ToolUpdateResult D) :=
  let ie2 := (@handle_event_mouse_input V M K T D abs rel ie).1
  (ToolEvent.Input ie2, tool.handleEvent (ToolEvent.Input ie2) toolSt)

/-- `TextEventMsg` (src/sketch_board.rs lines 72-81); preedit spans are opaque
here (`P`). -/
inductive TextEventMsg (P : Type) where
  | Commit (txt : List Char)
  | Preedit (text : List Char) (cursor_chars : Option Nat) (spans : P)
  | PreeditEnd

/-- The board-level messages `handle_text_commit` can emit: re-queued input
events (via `sender.input`) and board outputs (via `sender.output_sender`). -/
inductive OutMsg (ToolId P : Type) where
  | forwardText (txt : List Char)
  | forwardPreedit (text : List Char) (cursor_chars : Option Nat) (spans : P)
  | forwardPreeditEnd
  | toolbarToolSelected (t : ToolId)
  | toolSwitchShortcut (t : ToolId)
  | colorSwitchShortcut (idx : Nat)
deriving DecidableEq

/-- Rust's `char::to_digit(10)`: `Some(d)` exactly for the ASCII digits
`'0'..='9'` (code points 48 to 57). -/
def charToDigit10 (c : Char) : Option Nat :=
  if 48 ≤ c.toNat ∧ c.toNat ≤ 57 then some (c.toNat - 48) else none

/-- `SketchBoard::handle_text_commit` (src/sketch_board.rs lines 673-738),
modelled as the list of messages it emits, in order.  `isTextTool` stands for
`active_tool_type() == Tools::Text`, `inputEnabled` for
`active_tool.borrow().input_enabled()`, `getTool` for the configured
`keybinds().get_tool` map, and `paletteLen` for
`color_palette().palette().len()`.  The source function itself always returns
`ToolUpdateResult::Unmodified`. -/
def handle_text_commit {ToolId P : Type} (isTextTool inputEnabled : Bool)
    (getTool : Char → Option ToolId) (paletteLen : Nat)
    (event : TextEventMsg P) : List (OutMsg ToolId P) :=
  match event with
  | TextEventMsg.Commit txt =>
    if isTextTool && inputEnabled then
      [OutMsg.forwardText txt]
    else
      match txt.head?.bind getTool with
      | some tool => [OutMsg.toolbarToolSelected tool, OutMsg.toolSwitchShortcut tool]
      | none =>
        match txt.head?.bind charToDigit10 with
        | some hotkeyDigit =>
          let indexDigit := if hotkeyDigit = 0 then 9 else hotkeyDigit - 1
          if indexDigit + 1 ≤ paletteLen then [OutMsg.colorSwitchShortcut indexDigit]
          else []
        | none => []
  | TextEventMsg.Preedit text cursor spans =>
    if isTextTool && inputEnabled then [OutMsg.forwardPreedit text cursor spans]
    else []
  | TextEventMsg.PreeditEnd =>
    if isTextTool && inputEnabled then [OutMsg.forwardPreeditEnd]
    else []

/-- `Action` from `src/configuration` as used by `handle_render_result`. -/
inductive Action where
  | SaveToFile
  | SaveToFileAs
  | SaveToClipboard
  | Exit
deriving DecidableEq

/-- Boolean test for the `Exit` action. -/
def Action.isExit : Action → Bool
  | Action.Exit => true
  | _ => false

/-- The side effect the action loop in `handle_render_result` performs for one
action (the `match action` in src/sketch_board.rs lines 305-327); `Exit` falls
into the `_ => ()` arm and has none. -/
inductive RenderEffect where
  | copyClipboard
  | saveFile
  | saveFileAs
deriving DecidableEq

/-- Which side effect each action dispatches to. -/
def actionEffect : Action → Option RenderEffect
  | Action.SaveToClipboard => some RenderEffect.copyClipboard
  | Action.SaveToFile => some RenderEffect.saveFile
  | Action.SaveToFileAs => some RenderEffect.saveFileAs
  | Action.Exit => none

/-- The action loop of `SketchBoard::handle_render_result`
(src/sketch_board.rs lines 290-334): perform each action's side effect in
order; after each action, if the `early_exit` configuration flag is set or the
action was `Exit`, emit the `Exit` output and return, skipping the rest.
Returns the side effects performed, in order, and whether `Exit` was
emitted. -/
def handle_render_result (earlyExit : Bool) : List Action → List RenderEffect × Bool
  | [] => ([], false)
  | a :: rest =>
    let effs := (actionEffect a).toList
    if earlyExit || a.isExit then (effs, true)
    else
      let r := handle_render_result earlyExit rest
      (effs ++ r.1, r.2)

/-- Written from the spec's words: the prefix of the action list that gets
processed — everything up to and including the first `Exit`, or just the first
action when the early-exit flag is set. -/
def takeThroughExit : List Action → List Action
  | [] => []
  | a :: rest => if a.isExit then [a] else a :: takeThroughExit rest

/-- Written from the spec's words: the actions executed for one delivered
render result. -/
def executedActionsSpec (earlyExit : Bool) (actions : List Action) : List Action :=
  if earlyExit then actions.take 1 else takeThroughExit actions

/-- Written from the spec's words: whether an `Exit` output is emitted for one
delivered render result. -/
def exitEmittedSpec (earlyExit : Bool) (actions : List Action) : Bool :=
  if earlyExit then !actions.isEmpty else actions.any Action.isExit

/-- The tilde expansion step of `SketchBoard::handle_save`
(src/sketch_board.rs lines 356-361): a filename starting with `~/` has the
tilde replaced by the home directory when one is known (`PathBuf::push` of the
remainder onto the home path). -/
def tildeExpand (home : Option String) (f : String) : String :=
  if f.startsWith "~/" then
    match home with
    | some h => h ++ "/" ++ f.drop 2
    | none => f
  else f

/-- What `SketchBoard::handle_save` does before spawning the writer thread:
either it returns early with a printed message (no save), or it spawns the
save with a final filename, having possibly printed a format warning. -/
inductive SaveOutcome where
  | noSave (msg : String)
  | save (filename : String) (warned : Bool)
deriving DecidableEq

/-- Whether the outcome spawns a save. -/
def SaveOutcome.proceeds : SaveOutcome → Bool
  | SaveOutcome.noSave _ => false
  | SaveOutcome.save _ _ => true

/-- `SketchBoard::handle_save` (src/sketch_board.rs lines 336-407), up to the
point where the writer thread is spawned.  `outputFilename` is
`APP_CONFIG.read().output_filename()`; `formatted` is the outcome of rendering
the chrono timestamp template (`none` models the `catch_unwind` catching a
format panic, in which case the literal template is kept and a warning is
printed); `home` is `std::env::home_dir()`.  The tilde expansion then runs on
whichever filename survived. -/
def handle_save (outputFilename : Option String) (formatted : Option String)
    (home : Option String) : SaveOutcome :=
  match outputFilename with
  | none => SaveOutcome.noSave "No Output filename specified!"
  | some o =>
    let fname :=
      match formatted with
      | none => o
      | some s => s
    let warned :=
      match formatted with
      | none => true
      | some _ => false
    SaveOutcome.save (tildeExpand home fname) warned

/-- Big-endian byte encoding of a 32-bit value (`i32::to_be_bytes` applied to
the value's two's-complement bit pattern, given as a `Nat` below 2^32). -/
def toBeBytes4 (n : Nat) : List Nat :=
  [n / 16777216 % 256, n / 65536 % 256, n / 256 % 256, n % 256]

/-- Big-endian byte encoding of a 64-bit value (`u64::to_be_bytes`). -/
def toBeBytes8 (n : Nat) : List Nat :=
  [n / 72057594037927936 % 256, n / 281474976710656 % 256, n / 1099511627776 % 256,
   n / 4294967296 % 256, n / 16777216 % 256, n / 65536 % 256, n / 256 % 256, n % 256]

/-- Big-endian interpretation of a byte list (`from_be_bytes`). -/
def fromBeBytes (bs : List Nat) : Nat :=
  bs.foldl (fun a b => a * 256 + b) 0

/-- `i32::to_be_bytes`: encode a signed 32-bit value through its
two's-complement bit pattern. -/
def encodeI32 (v : Int) : List Nat :=
  toBeBytes4 ((v % 4294967296).toNat)

/-- `i32::from_be_bytes`: decode four big-endian bytes as a signed 32-bit
value (two's complement). -/
def decodeI32 (bs : List Nat) : Int :=
  let n := fromBeBytes bs
  if n < 2147483648 then (n : Int) else (n : Int) - 4294967296

/-- `RawImageData` (src/main.rs lines 44-51): width, height, channel count and
row stride are `i32`; the pixel bytes are raw. -/
structure RawImageData where
  width : Int
  height : Int
  n_channels : Int
  rowstride : Int
  data : List Nat
deriving DecidableEq

/-- The fields of `RawImageData` fit in `i32`. -/
def inI32Range (v : Int) : Prop :=
  -2147483648 ≤ v ∧ v < 2147483648

instance (v : Int) : Decidable (inI32Range v) := by
  unfold inI32Range
  infer_instance

/-- The byte stream `try_send_to_daemon` writes (src/main.rs lines 58-81):
four 4-byte big-endian `i32`s (width, height, channel count, row stride), an
8-byte big-endian `u64` pixel-byte count, then the pixel bytes. -/
def try_send_to_daemon (img : RawImageData) : List Nat :=
  encodeI32 img.width ++ encodeI32 img.height ++ encodeI32 img.n_channels ++
    encodeI32 img.rowstride ++ toBeBytes8 img.data.length ++ img.data

/-- `Read::read_exact` on a byte stream: take exactly `n` bytes, failing when
fewer remain. -/
def readExact (n : Nat) (bs : List Nat) : Option (List Nat × List Nat) :=
  if n ≤ bs.length then some (bs.take n, bs.drop n) else none

/-- `read_raw_image_from_stream` (src/main.rs lines 83-112): parse the relay
framing; any `read_exact` failure makes the whole parse return `None`. -/
def read_raw_image_from_stream (bs : List Nat) : Option RawImageData :=
  match readExact 4 bs with
  | none => none
  | some (wb, bs1) =>
    match readExact 4 bs1 with
    | none => none
    | some (hb, bs2) =>
      match readExact 4 bs2 with
      | none => none
      | some (cb, bs3) =>
        match readExact 4 bs3 with
        | none => none
        | some (rb, bs4) =>
          match readExact 8 bs4 with
          | none => none
          | some (lb, bs5) =>
            match readExact (fromBeBytes lb) bs5 with
            | none => none
            | some (dat, _) =>
              some ⟨decodeI32 wb, decodeI32 hb, decodeI32 cb, decodeI32 rb, dat⟩

/-- The pixel-byte count a stream declares in its length field (bytes 16-23). -/
def declaredLen (bs : List Nat) : Nat :=
  fromBeBytes ((bs.drop 16).take 8)

/-- A concrete tool whose deactivation commits the drawable `7` (a shape tool
with in-progress geometry at switch time). -/
def exToolCommit : ToolImpl Unit Nat Unit Unit :=
  ⟨fun e _ =>
      ((), match e with
        | ToolEvent.Deactivated => ToolUpdateResult.Commit 7
        | _ => ToolUpdateResult.Unmodified),
    fun _ => ((), ToolUpdateResult.Unmodified),
    fun _ => ((), ToolUpdateResult.Unmodified),
    fun _ => true,
    fun _ => false⟩

/-- A concrete tool whose deactivation requests a redraw. -/
def exToolDeactRedraw : ToolImpl Unit Nat Unit Unit :=
  ⟨fun e _ =>
      ((), match e with
        | ToolEvent.Deactivated => ToolUpdateResult.Redraw
        | _ => ToolUpdateResult.Unmodified),
    fun _ => ((), ToolUpdateResult.Unmodified),
    fun _ => ((), ToolUpdateResult.Unmodified),
    fun _ => true,
    fun _ => false⟩

/-- A concrete tool whose activation returns `StopPropagation`. -/
def exToolActStop : ToolImpl Unit Nat Unit Unit :=
  ⟨fun e _ =>
      ((), match e with
        | ToolEvent.Activated => ToolUpdateResult.StopPropagation
        | _ => ToolUpdateResult.Unmodified),
    fun _ => ((), ToolUpdateResult.Unmodified),
    fun _ => ((), ToolUpdateResult.Unmodified),
    fun _ => true,
    fun _ => false⟩

/-- A concrete inactive tool whose local undo/redo would return
`StopPropagation` (so a fall-through to History is observable). -/
def exToolInactive : ToolImpl Unit Nat Unit Unit :=
  ⟨fun _ _ => ((), ToolUpdateResult.Unmodified),
    fun _ => ((), ToolUpdateResult.StopPropagation),
    fun _ => ((), ToolUpdateResult.StopPropagation),
    fun _ => false,
    fun _ => false⟩

/-- Tool table for the C1 witness: every id is the committing tool. -/
def exImplsCommit : Bool → ToolImpl Unit Nat Unit Unit := fun _ => exToolCommit

/-- Tool table for the C6 counterexample: the old tool (id `false`) redraws on
deactivation, the new tool (id `true`) stops propagation on activation. -/
def exImplsC6 : Bool → ToolImpl Unit Nat Unit Unit :=
  fun b => if b then exToolActStop else exToolDeactRedraw

/-- Trivial per-tool state table. -/
def exStates : Bool → Unit := fun _ => ()

/-- An empty keybinding map (no character is bound to a tool switch). -/
def exNoKeybinds : Char → Option Unit := fun _ => none

/-- A concrete image for the relay round-trip witness. -/
def exImage : RawImageData :=
  ⟨4, 3, 4, 16, [10, 20, 30]⟩

/-- C1: for every tool switch requested via a `ToolSelected` toolbar event, the
board sends `Deactivated` to the old active tool exactly once before installing
the new tool and `Activated` to the new tool exactly once afterwards, with
`StyleChanged` sent before `Activated` (the event trace is exactly those three
events, in that order); and the drawables committed to the renderer are exactly
`[d]` when the old tool's deactivation returned `Commit d` — never zero, never
more than one — and none otherwise. -/
theorem C1_tool_switch_protocol {St D S I ToolId : Type} [DecidableEq ToolId]
    (impls : ToolId → ToolImpl St D S I) (states : ToolId → St)
    (oldId newId : ToolId) (style : S) :
    (handle_toolbar_event_tool_selected impls states oldId newId style).1.events =
      [(oldId, ToolEvent.Deactivated), (newId, ToolEvent.StyleChanged style),
        (newId, ToolEvent.Activated)]
    ∧ (∀ d : D,
        (handle_toolbar_event_tool_selected impls states oldId newId style).1.deactResult =
          ToolUpdateResult.Commit d →
        (handle_toolbar_event_tool_selected impls states oldId newId style).1.commits = [d])
    ∧ ((∀ d : D,
        (handle_toolbar_event_tool_selected impls states oldId newId style).1.deactResult ≠
          ToolUpdateResult.Commit d) →
        (handle_toolbar_event_tool_selected impls states oldId newId style).1.commits = []) := by
  have ecommits :
      (handle_toolbar_event_tool_selected impls states oldId newId style).1.commits =
        commitList
          (handle_toolbar_event_tool_selected impls states oldId newId style).1.deactResult :=
    rfl
  refine ⟨rfl, ?_, ?_⟩
  · intro d h
    rw [ecommits, h]
    rfl
  · intro h
    rw [ecommits]
    rcases hd : (handle_toolbar_event_tool_selected impls states oldId newId
        style).1.deactResult with _ | _ | d | _ | _
    · rfl
    · rfl
    · exact absurd hd (h d)
    · rfl
    · rfl

/-- Witness for C1 at a concrete instance: two tools over `Bool` ids, the old
tool committing drawable `7` on deactivation. -/
theorem C1_tool_switch_protocol_witness :
    (handle_toolbar_event_tool_selected exImplsCommit exStates false true ()).1.commits = [7]
    ∧ (handle_toolbar_event_tool_selected exImplsCommit exStates false true ()).1.events =
      [(false, ToolEvent.Deactivated), (true, ToolEvent.StyleChanged ()),
        (true, ToolEvent.Activated)] :=
  ⟨(C1_tool_switch_protocol exImplsCommit exStates false true ()).2.1 7 rfl,
    (C1_tool_switch_protocol exImplsCommit exStates false true ()).1⟩

/-- C6 fails as stated: at this concrete instance the old tool's deactivation
produces `Redraw`, yet the tool switch returns `StopPropagation` (the new
tool's activation result), not `Redraw`. -/
theorem C6_switch_redraw_counterexample :
    ((exImplsC6 false).handleEvent ToolEvent.Deactivated (exStates false)).2 =
      ToolUpdateResult.Redraw
    ∧ (handle_toolbar_event_tool_selected exImplsC6 exStates false true
        ()).1.deactResult = ToolUpdateResult.Redraw
    ∧ (handle_toolbar_event_tool_selected exImplsC6 exStates false true
        ()).1.result = ToolUpdateResult.StopPropagation
    ∧ (handle_toolbar_event_tool_selected exImplsC6 exStates false true
        ()).1.result ≠ ToolUpdateResult.Redraw := by
  refine ⟨rfl, rfl, by decide, by decide⟩

/-- C6 (amended): after a tool switch the result is the activation result
whenever that is not `Unmodified`; only when the activation returns
`Unmodified` is the result the deactivation result with `Commit` converted to
`Redraw`.  In particular the result is `Redraw` whenever the activation
produced `Redraw`, or the activation returned `Unmodified` and the
deactivation produced a redraw or a pending commit. -/
theorem C6_switch_redraw_amended {St D S I ToolId : Type} [DecidableEq ToolId]
    (impls : ToolId → ToolImpl St D S I) (states : ToolId → St)
    (oldId newId : ToolId) (style : S) :
    ((handle_toolbar_event_tool_selected impls states oldId newId style).1.activateResult =
        ToolUpdateResult.Unmodified →
      (handle_toolbar_event_tool_selected impls states oldId newId style).1.result =
        commitToRedraw
          (handle_toolbar_event_tool_selected impls states oldId newId style).1.deactResult)
    ∧ ((handle_toolbar_event_tool_selected impls states oldId newId style).1.activateResult ≠
        ToolUpdateResult.Unmodified →
      (handle_toolbar_event_tool_selected impls states oldId newId style).1.result =
        (handle_toolbar_event_tool_selected impls states oldId newId style).1.activateResult)
    ∧ ((handle_toolbar_event_tool_selected impls states oldId newId style).1.activateResult =
        ToolUpdateResult.Redraw →
      (handle_toolbar_event_tool_selected impls states oldId newId style).1.result =
        ToolUpdateResult.Redraw) := by
  have eres :
      (handle_toolbar_event_tool_selected impls states oldId newId style).1.result =
        switchResult
          (handle_toolbar_event_tool_selected impls states oldId newId style).1.deactResult
          (handle_toolbar_event_tool_selected impls states oldId newId style).1.activateResult :=
    rfl
  refine ⟨?_, ?_, ?_⟩
  · intro h
    rw [eres, h]
    rfl
  · intro h
    rw [eres]
    rcases ha : (handle_toolbar_event_tool_selected impls states oldId newId
        style).1.activateResult with _ | _ | d | _ | _
    · exact absurd ha h
    · rfl
    · rfl
    · rfl
    · rfl
  · intro h
    rw [eres, h]
    rfl

/-- Witness for the amended C6 at the counterexample instance: the activation
returned `StopPropagation` (not `Unmodified`), so that is the switch result. -/
theorem C6_switch_redraw_amended_witness :
    (handle_toolbar_event_tool_selected exImplsC6 exStates false true
      ()).1.result = ToolUpdateResult.StopPropagation := by
  have h := (C6_switch_redraw_amended exImplsC6 exStates false true ()).2.1 (by decide)
  exact h.trans (by decide)

/-- C2: for every undo (and symmetrically redo) request, if the active tool
reports `active()` then the tool's own `handle_undo` (`handle_redo`) result is
returned and History is untouched; only when the tool is inactive does the
request fall through to History, returning `Redraw` exactly when the cursor
could move and `Unmodified` (with History unchanged) when it could not. -/
theorem C2_undo_redo_tool_first {St D S I : Type} (tool : ToolImpl St D S I)
    (toolSt : St) (hist : History D) :
    (tool.active toolSt = true →
        handle_undo tool toolSt hist =
          ((tool.handleUndo toolSt).1, hist, (tool.handleUndo toolSt).2)
      ∧ handle_redo tool toolSt hist =
          ((tool.handleRedo toolSt).1, hist, (tool.handleRedo toolSt).2))
    ∧ (tool.active toolSt = false →
        (0 < hist.cursor →
          handle_undo tool toolSt hist =
            (toolSt, { hist with cursor := hist.cursor - 1 }, ToolUpdateResult.Redraw))
      ∧ (hist.cursor = 0 →
          handle_undo tool toolSt hist = (toolSt, hist, ToolUpdateResult.Unmodified))
      ∧ (hist.cursor < hist.stack.length →
          handle_redo tool toolSt hist =
            (toolSt, { hist with cursor := hist.cursor + 1 }, ToolUpdateResult.Redraw))
      ∧ (¬ hist.cursor < hist.stack.length →
          handle_redo tool toolSt hist = (toolSt, hist, ToolUpdateResult.Unmodified))) := by
  constructor
  · intro h
    constructor <;> simp [handle_undo, handle_redo, h]
  · intro h
    refine ⟨?_, ?_, ?_, ?_⟩ <;> intro hc <;>
      simp [handle_undo, handle_redo, History.undo, History.redo, h, hc]

/-- Witness for C2 at a concrete instance: an inactive tool falls through to a
History with one committed drawable and cursor 1; undo moves the cursor back
and reports `Redraw`. -/
theorem C2_undo_redo_tool_first_witness :
    handle_undo exToolInactive () ⟨[5], 1⟩ = ((), ⟨[5], 0⟩, ToolUpdateResult.Redraw) := by
  have h := (C2_undo_redo_tool_first exToolInactive () ⟨[5], 1⟩).2 rfl
  exact h.1 (by decide)

/-- C3: for a committed text event whose first character is a decimal digit,
when the active tool is not the text tool accepting input and the digit is not
bound as a tool-switch key, digit `d` in 1..9 maps to palette index `d - 1`
and digit 0 to index 9, and a `ColorSwitchShortcut` is emitted if and only if
the configured palette has at least `index + 1` entries. -/
theorem C3_digit_color_shortcut {ToolId P : Type} (isTextTool inputEnabled : Bool)
    (getTool : Char → Option ToolId) (paletteLen : Nat) (c : Char) (rest : List Char)
    (hd1 : 48 ≤ c.toNat) (hd2 : c.toNat ≤ 57)
    (hTool : (isTextTool && inputEnabled) = false)
    (hKey : getTool c = none) :
    @handle_text_commit ToolId P isTextTool inputEnabled getTool paletteLen
        (TextEventMsg.Commit (c :: rest)) =
      (if (if c.toNat = 48 then 9 else c.toNat - 49) + 1 ≤ paletteLen then
        [OutMsg.colorSwitchShortcut (if c.toNat = 48 then 9 else c.toNat - 49)]
      else [])
    ∧ (@OutMsg.colorSwitchShortcut ToolId P
          (if c.toNat = 48 then 9 else c.toNat - 49) ∈
        @handle_text_commit ToolId P isTextTool inputEnabled getTool paletteLen
          (TextEventMsg.Commit (c :: rest)) ↔
      (if c.toNat = 48 then 9 else c.toNat - 49) + 1 ≤ paletteLen) := by
  have hcd : charToDigit10 c = some (c.toNat - 48) := by
    simp [charToDigit10, hd1, hd2]
  have hidx : (if c.toNat - 48 = 0 then 9 else c.toNat - 48 - 1) =
      (if c.toNat = 48 then 9 else c.toNat - 49) := by
    by_cases h : c.toNat = 48
    · simp [h]
    · rw [if_neg (by omega), if_neg h]
      omega
  have heq : @handle_text_commit ToolId P isTextTool inputEnabled getTool paletteLen
      (TextEventMsg.Commit (c :: rest)) =
      (if (if c.toNat = 48 then 9 else c.toNat - 49) + 1 ≤ paletteLen then
        [OutMsg.colorSwitchShortcut (if c.toNat = 48 then 9 else c.toNat - 49)]
      else []) := by
    simp [handle_text_commit, hTool, hKey, hcd, hidx]
  refine ⟨heq, ?_⟩
  rw [heq]
  split_ifs with hp <;> simp [hp] <;> omega

/-- Witness for C3: digit `'5'` (code 53) with a 10-entry palette, no
keybinding and no text tool accepting input, yields palette index 4. -/
theorem C3_digit_color_shortcut_witness :
    @handle_text_commit Unit Unit false false exNoKeybinds 10
        (TextEventMsg.Commit [Char.ofNat 53]) = [OutMsg.colorSwitchShortcut 4] := by
  have h := @C3_digit_color_shortcut Unit Unit false false exNoKeybinds 10
    (Char.ofNat 53) [] (by decide) (by decide) rfl rfl
  rw [h.1]
  decide

/-- C4: before a mouse input event is routed to the active tool, its position
is transformed — `Click`, `Release` and `BeginDrag` through the absolute
viewport-to-image mapping, `UpdateDrag` and `EndDrag` through the relative
(scale-only) mapping, `Scroll` and `PointerPos` not at all — and the event the
active tool receives carries exactly the transformed position
(`mouseTransformSpec` is the spec-side description of that mapping choice). -/
theorem C4_mouse_transform_before_routing {St V M K T D S : Type} (abs rel : V → V)
    (tool : ToolImpl St D S (InputEvent V M K T)) (toolSt : St)
    (me : MouseEventMsg V M) :
    (update_route_mouse abs rel tool toolSt (InputEvent.Mouse me)).1 =
      ToolEvent.Input
        (InputEvent.Mouse { me with pos := mouseTransformSpec abs rel me.type_ me.pos })
    ∧ (@handle_event_mouse_input V M K T D abs rel (InputEvent.Mouse me)).1 =
      InputEvent.Mouse { me with pos := mouseTransformSpec abs rel me.type_ me.pos }
    ∧ (@handle_event_mouse_input V M K T D abs rel (InputEvent.Mouse me)).2 = none := by
  rcases me with ⟨ty, b, m, p, n, r⟩
  cases ty <;> exact ⟨rfl, rfl, rfl⟩

/-- C5: for every delivered render result, the side effects performed are
exactly those of the executed prefix of the action list, in order, where the
executed prefix runs up to and including the first `Exit` (or is just the
first action when the early-exit flag is set); an `Exit` output is emitted
exactly when the list contains an `Exit` (or the early-exit flag is set and
the list is nonempty). -/
theorem C5_render_actions_in_order (earlyExit : Bool) (actions : List Action) :
    handle_render_result earlyExit actions =
      ((executedActionsSpec earlyExit actions).filterMap actionEffect,
        exitEmittedSpec earlyExit actions) := by
  induction actions with
  | nil => cases earlyExit <;> rfl
  | cons a rest ih =>
    cases earlyExit <;> cases a <;>
      simp_all [handle_render_result, executedActionsSpec, takeThroughExit,
        exitEmittedSpec, actionEffect, Action.isExit, Option.toList]

/-- C7: for every `SaveToFile` with a configured output filename, a timestamp
formatting failure never aborts the save; on failure the save proceeds with
the literal, unexpanded template as the filename (subject only to the usual
leading-tilde home expansion) and a warning is logged. -/
theorem C7_save_format_failure_fallback (template : String)
    (formatted : Option String) (home : Option String) :
    (handle_save (some template) formatted home).proceeds = true
    ∧ handle_save (some template) none home =
        SaveOutcome.save (tildeExpand home template) true := by
  constructor
  · cases formatted <;> rfl
  · rfl

/-- C9: the conversion from raw GDK button codes to `MouseButton` is total:
codes 1, 2, 3 map to `Primary`, `Middle`, `Secondary` respectively, and every
other value maps to `Primary` rather than failing. -/
theorem C9_mouse_button_total (v : Nat) (h1 : v ≠ 1) (h2 : v ≠ 2) (h3 : v ≠ 3) :
    mouseButtonFromU32 BUTTON_PRIMARY = MouseButton.Primary
    ∧ mouseButtonFromU32 BUTTON_MIDDLE = MouseButton.Middle
    ∧ mouseButtonFromU32 BUTTON_SECONDARY = MouseButton.Secondary
    ∧ mouseButtonFromU32 v = MouseButton.Primary := by
  refine ⟨rfl, rfl, rfl, ?_⟩
  simp [mouseButtonFromU32, BUTTON_PRIMARY, BUTTON_MIDDLE, BUTTON_SECONDARY, h1, h2, h3]

/-- Witness for C9: the unknown button code 42 maps to `Primary`. -/
theorem C9_mouse_button_total_witness :
    mouseButtonFromU32 42 = MouseButton.Primary :=
  (C9_mouse_button_total 42 (by decide) (by decide) (by decide)).2.2.2

/-- C10: for every `SaveToFile` when no output filename is configured,
`handle_save` only prints a message and returns without spawning a save — no
file is written and no error is raised, for any formatter or home-directory
behaviour. -/
theorem C10_save_without_filename_noop (formatted home : Option String) :
    handle_save none formatted home = SaveOutcome.noSave "No Output filename specified!" :=
  rfl

theorem fromBeBytes_toBeBytes4 (n : Nat) (h : n < 4294967296) :
    fromBeBytes (toBeBytes4 n) = n := by
  simp [toBeBytes4, fromBeBytes, List.foldl]
  omega

theorem fromBeBytes_toBeBytes8 (n : Nat) (h : n < 18446744073709551616) :
    fromBeBytes (toBeBytes8 n) = n := by
  simp [toBeBytes8, fromBeBytes, List.foldl]
  omega

theorem decodeI32_encodeI32 (v : Int) (h1 : -2147483648 ≤ v) (h2 : v < 2147483648) :
    decodeI32 (encodeI32 v) = v := by
  have hm0 : 0 ≤ v % 4294967296 := Int.emod_nonneg v (by norm_num)
  have hm1 : v % 4294967296 < 4294967296 := Int.emod_lt_of_pos v (by norm_num)
  have ht : ((v % 4294967296).toNat : Int) = v % 4294967296 := Int.toNat_of_nonneg hm0
  simp only [decodeI32, encodeI32]
  rw [fromBeBytes_toBeBytes4 _ (by omega)]
  split_ifs with hlt <;> omega

theorem readExact_append (xs ys : List Nat) (n : Nat) (h : xs.length = n) :
    readExact n (xs ++ ys) = some (xs, ys) := by
  subst h
  unfold readExact
  rw [if_pos (by simp), List.take_left, List.drop_left]

theorem readExact_encodeI32 (v : Int) (ys : List Nat) :
    readExact 4 (encodeI32 v ++ ys) = some (encodeI32 v, ys) :=
  readExact_append _ _ _ rfl

theorem readExact_toBeBytes8 (n : Nat) (ys : List Nat) :
    readExact 8 (toBeBytes8 n ++ ys) = some (toBeBytes8 n, ys) :=
  readExact_append _ _ _ rfl

theorem readExact_all (xs : List Nat) : readExact xs.length xs = some (xs, []) := by
  unfold readExact
  rw [if_pos (le_refl _), List.take_length, List.drop_length]

theorem relay_roundtrip_aux (img : RawImageData)
    (hw1 : -2147483648 ≤ img.width) (hw2 : img.width < 2147483648)
    (hh1 : -2147483648 ≤ img.height) (hh2 : img.height < 2147483648)
    (hc1 : -2147483648 ≤ img.n_channels) (hc2 : img.n_channels < 2147483648)
    (hr1 : -2147483648 ≤ img.rowstride) (hr2 : img.rowstride < 2147483648)
    (hl : img.data.length < 18446744073709551616) :
    read_raw_image_from_stream (try_send_to_daemon img) = some img := by
  rcases img with ⟨w, ht, c, r, data⟩
  simp only [try_send_to_daemon, read_raw_image_from_stream, List.append_assoc,
    readExact_encodeI32, readExact_toBeBytes8,
    fromBeBytes_toBeBytes8 data.length hl, readExact_all,
    decodeI32_encodeI32 w hw1 hw2, decodeI32_encodeI32 ht hh1 hh2,
    decodeI32_encodeI32 c hc1 hc2, decodeI32_encodeI32 r hr1 hr2]

theorem parse_none_iff (bs : List Nat) :
    read_raw_image_from_stream bs = none ↔ bs.length < 24 + declaredLen bs := by
  have e4 : ∀ (l : List Nat) (n : Nat), n ≤ l.length →
      readExact n l = some (l.take n, l.drop n) := by
    intro l n h
    simp [readExact, h]
  have en : ∀ (l : List Nat) (n : Nat), ¬ n ≤ l.length → readExact n l = none := by
    intro l n h
    simp [readExact, h]
  have hd8 : (bs.drop 4).drop 4 = bs.drop 8 := by simp [List.drop_drop]
  have hd12 : (bs.drop 8).drop 4 = bs.drop 12 := by simp [List.drop_drop]
  have hd16 : (bs.drop 12).drop 4 = bs.drop 16 := by simp [List.drop_drop]
  have hd24 : (bs.drop 16).drop 8 = bs.drop 24 := by simp [List.drop_drop]
  have hl4 : (bs.drop 4).length = bs.length - 4 := by simp
  have hl8 : (bs.drop 8).length = bs.length - 8 := by simp
  have hl12 : (bs.drop 12).length = bs.length - 12 := by simp
  have hl16 : (bs.drop 16).length = bs.length - 16 := by simp
  have hl24 : (bs.drop 24).length = bs.length - 24 := by simp
  have hfold : fromBeBytes ((bs.drop 16).take 8) = declaredLen bs := rfl
  by_cases h1 : 4 ≤ bs.length
  case neg =>
    simp only [read_raw_image_from_stream, en bs 4 h1]
    exact ⟨fun _ => by omega, fun _ => trivial⟩
  case pos =>
  simp only [read_raw_image_from_stream, e4 bs 4 h1]
  by_cases h2 : 4 ≤ (bs.drop 4).length
  case neg =>
    simp only [en (bs.drop 4) 4 h2]
    exact ⟨fun _ => by omega, fun _ => trivial⟩
  case pos =>
  simp only [e4 (bs.drop 4) 4 h2, hd8]
  by_cases h3 : 4 ≤ (bs.drop 8).length
  case neg =>
    simp only [en (bs.drop 8) 4 h3]
    exact ⟨fun _ => by omega, fun _ => trivial⟩
  case pos =>
  simp only [e4 (bs.drop 8) 4 h3, hd12]
  by_cases h4 : 4 ≤ (bs.drop 12).length
  case neg =>
    simp only [en (bs.drop 12) 4 h4]
    exact ⟨fun _ => by omega, fun _ => trivial⟩
  case pos =>
  simp only [e4 (bs.drop 12) 4 h4, hd16]
  by_cases h5 : 8 ≤ (bs.drop 16).length
  case neg =>
    simp only [en (bs.drop 16) 8 h5]
    exact ⟨fun _ => by omega, fun _ => trivial⟩
  case pos =>
  simp only [e4 (bs.drop 16) 8 h5, hd24, hfold]
  by_cases h6 : declaredLen bs ≤ (bs.drop 24).length
  case neg =>
    simp only [en (bs.drop 24) (declaredLen bs) h6]
    exact ⟨fun _ => by omega, fun _ => trivial⟩
  case pos =>
  simp only [e4 (bs.drop 24) (declaredLen bs) h6]
  exact ⟨fun h => Option.noConfusion h, fun hlt => absurd hlt (by omega)⟩

/-- C8: the relay protocol round-trips — the byte stream the sender writes
(four 4-byte big-endian integers, an 8-byte big-endian length, then that many
pixel bytes) parses back to a `RawImageData` with identical width, height,
channel count, row stride and pixel data — and the parser returns `none` for
exactly the truncated streams (those shorter than the 24-byte header plus the
declared pixel-byte count; such streams are dropped by the daemon with no
state change). -/
theorem C8_relay_protocol (img : RawImageData) (bs : List Nat)
    (hw : inI32Range img.width) (hh : inI32Range img.height)
    (hc : inI32Range img.n_channels) (hr : inI32Range img.rowstride)
    (hl : img.data.length < 18446744073709551616) :
    read_raw_image_from_stream (try_send_to_daemon img) = some img
    ∧ (read_raw_image_from_stream bs = none ↔ bs.length < 24 + declaredLen bs) :=
  ⟨relay_roundtrip_aux img hw.1 hw.2 hh.1 hh.2 hc.1 hc.2 hr.1 hr.2 hl,
    parse_none_iff bs⟩

/-- Witness for C8: a concrete 3-pixel-byte image round-trips, and a 3-byte
truncated stream is rejected. -/
theorem C8_relay_protocol_witness :
    read_raw_image_from_stream (try_send_to_daemon exImage) = some exImage
    ∧ read_raw_image_from_stream [0, 0, 0] = none := by
  have h := C8_relay_protocol exImage [0, 0, 0] (by decide) (by decide) (by decide)
    (by decide) (by decide)
  exact ⟨h.1, h.2.mpr (by decide)⟩

end Satty

